import Mathlib

/-!
# OfflineGo: the watchdog loop and the countdown of `main.go`

A shallow embedding of the detection and alerting logic of `main.go`:
`monitorLoop` (lines 269-324), `startCountdown` (340-371), `stopCountdown`
(374-382) and `runActionCommand` (385-419).

The program runs several goroutines over the unsynchronised globals
`failCounter` and `isAlerting` and the unbuffered channel `cancelChan`, so
the embedding is an interleaving transition system: a state holds the globals,
the program point of the watchdog loop and the program point and locals of
every countdown goroutine; an event is one step of one goroutine.

Conventions of the model.
* Go `int` values are mathematical integers (`Int`): the counters move by one
  per watchdog cycle or per second, far from the range of a machine word.
* `mw.Synchronize` only queues its closure for the UI thread. A watchdog cycle
  is therefore the probe with the queuing of the closure (lines 279-315) and
  the arming test (lines 318-320); the closure itself (lines 283-314) runs as
  a separate step of the UI thread, in queue order, before or after the test.
* A send on `cancelChan` is received by the goroutine that has been blocked in
  its `select` for the longest time; each goroutine records when it blocked.
* Window and label updates have no effect on the globals and are left out;
  `writeLog` calls and the process launch are recorded in an effect history.
* Time is not modelled: a ticker tick may arrive whenever a countdown waits in
  its `select`, and goroutines interleave freely.
-/

namespace OfflineGo

/-! ## Configuration -/

/-- AppConfig, `main.go` lines 39-47. -/
structure AppConfig where
  TargetIP : String
  PingInterval : Int
  PingTimeout : Int
  RetryCount : Int
  WaitDuration : Int
  ActionCommand : String
  AutoHideOnSuccess : Bool
  deriving DecidableEq, Repr

/-- The built-in values of `cfg`, `main.go` lines 60-68. -/
def defaultCfg : AppConfig :=
  { TargetIP := "192.168.123.1"
    PingInterval := 5
    PingTimeout := 2
    RetryCount := 3
    WaitDuration := 180
    ActionCommand := "shutdown /h"
    AutoHideOnSuccess := true }

/-! ## Effects: log lines and process launches -/

/-- What the modelled code sends to the logger and to the process launcher. -/
inductive Effect
  /-- The log line of line 286: the network is back and the countdown is being stopped. -/
  | logRecovered
  /-- The log line of line 311: the connection is lost (the retry limit is reached). -/
  | logLost
  /-- The log line of line 391: execution skipped, no ActionCommand configured. -/
  | logSkip
  /-- The log line of line 395: the command is being executed. -/
  | logExec (cmd : String)
  /-- The call `exec.Command("cmd", "/C", fullCmd)` with `cmd.Start()`, lines 398-404. -/
  | launch (cmd : String)
  deriving DecidableEq, Repr

/-! ## `strings.TrimSpace` and `runActionCommand` -/

/-- Go's `unicode.IsSpace`: the Latin-1 spaces tab, LF, VT, FF, CR, space,
U+0085, U+00A0 and the code points of the Unicode White_Space property. -/
def isSpace (c : Char) : Bool :=
  let n := c.toNat
  n == 0x09 || n == 0x0A || n == 0x0B || n == 0x0C || n == 0x0D || n == 0x20 ||
  n == 0x85 || n == 0xA0 || n == 0x1680 || (0x2000 ≤ n && n ≤ 0x200A) ||
  n == 0x2028 || n == 0x2029 || n == 0x202F || n == 0x205F || n == 0x3000

/-- Removal of the leading white space of a rune sequence. -/
def trimLeft (cs : List Char) : List Char :=
  cs.dropWhile isSpace

/-- Removal of the trailing white space of a rune sequence. -/
def trimRight (cs : List Char) : List Char :=
  (cs.reverse.dropWhile isSpace).reverse

/-- Go's `strings.TrimSpace`: the string without its leading and trailing white space. -/
def TrimSpace (s : String) : String :=
  ⟨trimRight (trimLeft s.data)⟩

/-- runActionCommand, `main.go` lines 385-404: the effects up to and including
the launch attempt. The outcome of `cmd.Start()` and the detached `cmd.Wait()`
goroutine only add later log lines and are not part of the model. -/
def runActionCommand (cfg : AppConfig) : List Effect :=
  let fullCmd := cfg.ActionCommand
  if TrimSpace fullCmd == "" then
    [Effect.logSkip]
  else
    [Effect.logExec fullCmd, Effect.launch fullCmd]

/-! ## Countdown goroutines -/

/-- Program points of one `startCountdown` goroutine. -/
inductive Pc
  /-- Created by `go startCountdown()`; line 341 has not run yet. -/
  | spawned
  /-- Blocked in the `select` of line 352. -/
  | waiting
  /-- The case `<-ticker.C` was taken; control is at line 358. -/
  | ticked
  /-- The test of line 364 found `remaining <= 0`; control is at line 365. -/
  | expiring
  /-- Back from `runActionCommand`; control is at line 366. -/
  | clearing
  /-- The case `<-cancelChan` was taken; control is at line 355. -/
  | cancelled
  /-- The goroutine has returned. -/
  | done
  deriving DecidableEq, Repr

/-- One `startCountdown` goroutine: its program point, its local `remaining`,
the time at which it last blocked in its `select` (`parked`, which orders the
receivers on `cancelChan`), and two history counters (ticks taken from
`ticker.C`, calls of `runActionCommand`). -/
structure Session where
  pc : Pc
  remaining : Int
  parked : Nat
  ticks : Nat
  calls : Nat
  deriving DecidableEq, Repr

/-- The goroutine as `go startCountdown()` creates it. -/
def newSession : Session :=
  { pc := Pc.spawned, remaining := 0, parked := 0, ticks := 0, calls := 0 }

/-- The kinds of step of a countdown goroutine. -/
inductive SKind
  /-- Lines 341-349: `isAlerting = true`, `remaining := cfg.WaitDuration`, up to the `select`. -/
  | start
  /-- Line 357: the `select` takes a tick. -/
  | tick
  /-- Lines 358-364: decrement, label update, expiry test, back to the `select` if not expired. -/
  | body
  /-- Line 365: `runActionCommand()`. -/
  | act
  /-- Lines 366-367 or 355-356: `isAlerting = false` and return. -/
  | clear
  deriving DecidableEq, Repr

/-- One step of a countdown goroutine at time `now`: the goroutine afterwards,
the value it writes to `isAlerting` (if it writes), and its effects. `none`:
this kind of step is not what the goroutine does at its program point. -/
def sessionStep (cfg : AppConfig) (now : Nat) (k : SKind) (x : Session) :
    Option (Session × Option Bool × List Effect) :=
  match k, x.pc with
  | SKind.start, Pc.spawned =>
      some ({ x with pc := Pc.waiting, remaining := cfg.WaitDuration, parked := now },
        some true, [])
  | SKind.tick, Pc.waiting =>
      some ({ x with pc := Pc.ticked, ticks := x.ticks + 1 }, none, [])
  | SKind.body, Pc.ticked =>
      let remaining := x.remaining - 1
      if remaining ≤ 0 then
        some ({ x with pc := Pc.expiring, remaining := remaining }, none, [])
      else
        some ({ x with pc := Pc.waiting, remaining := remaining, parked := now }, none, [])
  | SKind.act, Pc.expiring =>
      some ({ x with pc := Pc.clearing, calls := x.calls + 1 }, none, runActionCommand cfg)
  | SKind.clear, Pc.clearing =>
      some ({ x with pc := Pc.done }, some false, [])
  | SKind.clear, Pc.cancelled =>
      some ({ x with pc := Pc.done }, some false, [])
  | _, _ => none

/-- The step a countdown goroutine takes next when no cancel signal reaches it. -/
def ownNext : Pc → Option SKind
  | Pc.spawned => some SKind.start
  | Pc.waiting => some SKind.tick
  | Pc.ticked => some SKind.body
  | Pc.expiring => some SKind.act
  | Pc.clearing => some SKind.clear
  | Pc.cancelled => some SKind.clear
  | Pc.done => none

/-! ## Global state -/

/-- The globals `failCounter` and `isAlerting`; the program point of
`monitorLoop` (`atArm`: this cycle's closure has been queued and control is at
line 318); the probe results of the closures of `monitorLoop` that are queued
for the UI thread (`pending`, oldest first) and of those that have run (`ran`, a
history); a clock that advances with every step of a countdown goroutine; the
countdown goroutines created so far; and the effect history. -/
structure State where
  failCounter : Int
  isAlerting : Bool
  atArm : Bool
  pending : List Bool
  ran : List Bool
  clock : Nat
  sessions : List Session
  effects : List Effect
  deriving DecidableEq, Repr

/-- The state at program start: `failCounter = 0`, `isAlerting = false`, no goroutine. -/
def init : State :=
  { failCounter := 0, isAlerting := false, atArm := false, pending := [], ran := [],
    clock := 0, sessions := [], effects := [] }

/-- The earliest time at which one of the goroutines blocked in the `select`
blocked there; `none` if no goroutine is blocked in the `select`. -/
def minParked : List Session → Option Nat
  | [] => none
  | x :: xs =>
      if x.pc = Pc.waiting then
        some (match minParked xs with
          | none => x.parked
          | some m => min x.parked m)
      else minParked xs

/-- The goroutine that blocked in the `select` at time `m` leaves it through the
cancel case. -/
def cancelAt (m : Nat) : List Session → List Session
  | [] => []
  | x :: xs =>
      if x.pc = Pc.waiting ∧ x.parked = m then { x with pc := Pc.cancelled } :: xs
      else x :: cancelAt m xs

/-- A send on the unbuffered `cancelChan` proceeds only if a countdown
goroutine is blocked in its `select`; the value goes to the one that has been
blocked longest, which leaves the `select` through the cancel case. `none`: no
goroutine is receiving. -/
def deliverCancel (ss : List Session) : Option (List Session) :=
  (minParked ss).map (fun m => cancelAt m ss)

/-- A `select` whose only channel case is `cancelChan <- true`; `dflt` says
whether it has a `default` branch. `none`: the `select` blocks. -/
def selectSend (dflt : Bool) (ss : List Session) : Option (List Session) :=
  match deliverCancel ss with
  | some ss1 => some ss1
  | none => if dflt then some ss else none

/-- stopCountdown, `main.go` lines 374-382. `none` would mean that the call blocks. -/
def stopCountdown (s : State) : Option State :=
  if s.isAlerting then
    (selectSend true s.sessions).map (fun ss => { s with sessions := ss })
  else
    some s

/-- The closure of `monitorLoop`, lines 283-314, for the probe result `success`. -/
def syncBody (cfg : AppConfig) (success : Bool) (s : State) : Option State :=
  let maxRetries := cfg.RetryCount
  if success then
    let r :=
      if s.isAlerting then
        stopCountdown { s with effects := s.effects ++ [Effect.logRecovered] }
      else
        some s
    r.map (fun t => { t with failCounter := 0 })
  else
    let t := { s with failCounter := s.failCounter + 1 }
    if !t.isAlerting && t.failCounter == maxRetries then
      some { t with effects := t.effects ++ [Effect.logLost] }
    else
      some t

/-- The arming test of `monitorLoop`, lines 318-320. -/
def armCheck (cfg : AppConfig) (s : State) : State :=
  let maxRetries := cfg.RetryCount
  if s.failCounter ≥ maxRetries && !s.isAlerting then
    { s with sessions := s.sessions ++ [newSession] }
  else
    s

/-- Events of the transition system: one step of one goroutine or of the UI thread. -/
inductive Event
  /-- The watchdog loop probes (`doPing` returns `success`) and hands its
  closure to `mw.Synchronize`, lines 272-315. -/
  | probe (success : Bool)
  /-- The UI thread runs the oldest queued closure of `monitorLoop`, lines 283-314. -/
  | ui
  /-- The watchdog loop runs the arming test, lines 318-320, and goes to sleep. -/
  | arm
  /-- Countdown goroutine number `i` takes a step of kind `k`. -/
  | sess (i : Nat) (k : SKind)
  deriving DecidableEq, Repr

/-- A step of countdown goroutine `i` in the global state. -/
def stepSession (cfg : AppConfig) (s : State) (i : Nat) (k : SKind) : Option State :=
  match s.sessions[i]? with
  | none => none
  | some x =>
      match sessionStep cfg s.clock k x with
      | none => none
      | some (y, w, eff) =>
          some { s with
            isAlerting := w.getD s.isAlerting
            clock := s.clock + 1
            sessions := s.sessions.set i y
            effects := s.effects ++ eff }

/-- The UI thread takes the oldest queued closure and runs it. `none`: no
closure is queued. -/
def stepUi (cfg : AppConfig) (s : State) : Option State :=
  match s.pending with
  | [] => none
  | success :: rest =>
      syncBody cfg success { s with pending := rest, ran := s.ran ++ [success] }

/-- One transition. `none`: the event is not enabled in the state. -/
def step (cfg : AppConfig) (s : State) : Event → Option State
  | Event.probe success =>
      if s.atArm then none
      else some { s with pending := s.pending ++ [success], atArm := true }
  | Event.ui => stepUi cfg s
  | Event.arm =>
      if s.atArm then some { armCheck cfg s with atArm := false } else none
  | Event.sess i k => stepSession cfg s i k

/-- Execution of a sequence of events. -/
def run (cfg : AppConfig) (s : State) : List Event → Option State
  | [] => some s
  | e :: es =>
      match step cfg s e with
      | none => none
      | some t => run cfg t es

/-- The probe results of a sequence of events, in order. -/
def probesOf : List Event → List Bool
  | [] => []
  | Event.probe b :: es => b :: probesOf es
  | _ :: es => probesOf es

/-- The next step of countdown goroutine `i` when no cancel signal reaches it;
the state stays as it is once the goroutine has returned (or if there is none). -/
def ownStep (cfg : AppConfig) (i : Nat) (s : State) : State :=
  match s.sessions[i]? with
  | none => s
  | some x =>
      match ownNext x.pc with
      | none => s
      | some k => (stepSession cfg s i k).getD s

/-- Countdown goroutine `i` runs on its own for `fuel` steps, no cancel signal
reaching it. -/
def ownRun (cfg : AppConfig) (i : Nat) : Nat → State → State
  | 0, s => s
  | fuel + 1, s => ownRun cfg i fuel (ownStep cfg i s)

/-- The state in which goroutine `i` is `y`, `isAlerting` is `a`, the effect
history is `effs` and the clock shows `c`, all else as in `s`. -/
def withSession (s : State) (i : Nat) (y : Session) (a : Bool) (effs : List Effect)
    (c : Nat) : State :=
  { s with isAlerting := a, clock := c, sessions := s.sessions.set i y, effects := effs }

/-- Number of "connection lost" lines in an effect history. -/
def lostCount (effs : List Effect) : Nat :=
  effs.count Effect.logLost

/-- Number of failed probes at the end of a probe sequence. -/
def trailingFails (probes : List Bool) : Nat :=
  (probes.reverse.takeWhile (fun b => !b)).length

/-- The watchdog loop running one cycle per probe result, each closure run by
the UI thread before the arming test of its cycle, no countdown goroutine
stepping. -/
def cyclesOf : List Bool → List Event
  | [] => []
  | b :: bs => Event.probe b :: Event.ui :: Event.arm :: cyclesOf bs

/-- The value of `failCounter` after the closure has run for each probe result
in turn, starting from the value `c`. -/
def countFrom (c : Int) : List Bool → Int
  | [] => c
  | b :: bs => countFrom (if b then 0 else c + 1) bs

/-- Calling `stopCountdown` `n` times in a row. `none` would mean that a call blocks. -/
def stopCountdownTimes : Nat → State → Option State
  | 0, s => some s
  | n + 1, s => (stopCountdown s).bind (stopCountdownTimes n)

/-- The history counters of a goroutine are tied to its program point: `m` is
the tick on which a countdown of `WaitDuration` seconds expires. -/
def SessInv (cfg : AppConfig) (m : Nat) (y : Session) : Prop :=
  match y.pc with
  | Pc.spawned => y.ticks = 0 ∧ y.calls = 0
  | Pc.waiting => y.remaining = cfg.WaitDuration - y.ticks ∧ y.ticks < m ∧ y.calls = 0
  | Pc.ticked => y.remaining = cfg.WaitDuration - y.ticks + 1 ∧ 1 ≤ y.ticks ∧
      y.ticks ≤ m ∧ y.calls = 0
  | Pc.expiring => y.ticks = m ∧ y.calls = 0
  | Pc.clearing => y.ticks = m ∧ y.calls = 1
  | Pc.cancelled => y.ticks < m ∧ y.calls = 0
  | Pc.done => (y.ticks < m ∧ y.calls = 0) ∨ (y.ticks = m ∧ y.calls = 1)

/-- The configuration of the scenario "threshold 3, countdown 2 seconds": the
built-in values with `WaitDuration = 2`. -/
def quickCfg : AppConfig :=
  { defaultCfg with WaitDuration := 2 }

/-- Number of cycles of a probe sequence in which the run of failed probes that
ends at that cycle has length exactly `R`, that is, in which `failCounter`
becomes equal to `R`. Each maximal run of failed probes has at most one such
cycle. -/
def thresholdCycles (R : Int) (probes : List Bool) : Nat :=
  ((List.range probes.length).filter
    (fun k => decide ((trailingFails (probes.take (k + 1)) : Int) = R))).length

/-! ## Basic facts about runs -/

theorem run_append (cfg : AppConfig) (s : State) (a b : List Event) :
    run cfg s (a ++ b) = (run cfg s a).bind (fun t => run cfg t b) := by
  induction a generalizing s with
  | nil => simp [run]
  | cons e es ih =>
    simp only [List.cons_append, run]
    cases h : step cfg s e with
    | none => simp
    | some t => simpa using ih t

theorem stepSession_frame (cfg : AppConfig) (s t : State) (i : Nat) (k : SKind)
    (h : stepSession cfg s i k = some t) :
    t.failCounter = s.failCounter ∧ t.atArm = s.atArm ∧
      t.sessions.length = s.sessions.length ∧ t.pending = s.pending ∧ t.ran = s.ran := by
  unfold stepSession at h
  cases hx : s.sessions[i]? with
  | none => simp [hx] at h
  | some x =>
    simp only [hx] at h
    cases hy : sessionStep cfg s.clock k x with
    | none => simp [hy] at h
    | some r =>
      obtain ⟨y, w, eff⟩ := r
      simp only [hy, Option.some.injEq] at h
      subst h
      simp

theorem stopCountdown_eq (s : State) :
    stopCountdown s =
      some (if s.isAlerting then
        { s with sessions := (deliverCancel s.sessions).getD s.sessions } else s) := by
  unfold stopCountdown selectSend
  cases ha : s.isAlerting
  · simp [ha]
  · cases hd : deliverCancel s.sessions <;> simp [ha, hd]

theorem syncBody_true (cfg : AppConfig) (s : State) :
    syncBody cfg true s =
      some (if s.isAlerting then
        { s with
          failCounter := 0
          sessions := (deliverCancel s.sessions).getD s.sessions
          effects := s.effects ++ [Effect.logRecovered] }
      else { s with failCounter := 0 }) := by
  unfold syncBody
  cases ha : s.isAlerting
  · simp [ha]
  · simp [stopCountdown_eq, ha]

theorem syncBody_false (cfg : AppConfig) (s : State) :
    syncBody cfg false s =
      some (if s.isAlerting = false ∧ s.failCounter + 1 = cfg.RetryCount then
        { s with
          failCounter := s.failCounter + 1
          effects := s.effects ++ [Effect.logLost] }
      else { s with failCounter := s.failCounter + 1 }) := by
  unfold syncBody
  cases ha : s.isAlerting
  · by_cases hc : s.failCounter + 1 = cfg.RetryCount <;> simp [hc, ha]
  · simp [ha]

theorem syncBody_isSome (cfg : AppConfig) (b : Bool) (s : State) :
    ∃ t, syncBody cfg b s = some t := by
  cases b
  · exact ⟨_, syncBody_false cfg s⟩
  · exact ⟨_, syncBody_true cfg s⟩

theorem syncBody_frame (cfg : AppConfig) (b : Bool) (s t : State)
    (h : syncBody cfg b s = some t) :
    t.failCounter = (if b then 0 else s.failCounter + 1) ∧ t.atArm = s.atArm ∧
      t.pending = s.pending ∧ t.ran = s.ran ∧ t.clock = s.clock := by
  cases b
  · rw [syncBody_false] at h
    simp only [Option.some.injEq] at h
    subst h
    split <;> simp
  · rw [syncBody_true] at h
    simp only [Option.some.injEq] at h
    subst h
    split <;> simp

theorem step_probe_eq (cfg : AppConfig) (b : Bool) (s : State) (h : s.atArm = false) :
    step cfg s (Event.probe b) =
      some { s with pending := s.pending ++ [b], atArm := true } := by
  simp [step, h]

theorem step_probe_inv (cfg : AppConfig) (b : Bool) (s t : State)
    (h : step cfg s (Event.probe b) = some t) :
    s.atArm = false ∧ t = { s with pending := s.pending ++ [b], atArm := true } := by
  cases ha : s.atArm
  · rw [step_probe_eq cfg b s ha] at h
    simp only [Option.some.injEq] at h
    exact ⟨rfl, h.symm⟩
  · simp [step, ha] at h

theorem step_ui_eq (cfg : AppConfig) (s : State) (b : Bool) (rest : List Bool)
    (h : s.pending = b :: rest) :
    step cfg s Event.ui =
      syncBody cfg b { s with pending := rest, ran := s.ran ++ [b] } := by
  simp [step, stepUi, h]

theorem step_ui_inv (cfg : AppConfig) (s t : State)
    (h : step cfg s Event.ui = some t) :
    ∃ b rest, s.pending = b :: rest ∧
      syncBody cfg b { s with pending := rest, ran := s.ran ++ [b] } = some t := by
  cases hp : s.pending with
  | nil => simp [step, stepUi, hp] at h
  | cons b rest =>
    rw [step_ui_eq cfg s b rest hp] at h
    exact ⟨b, rest, rfl, h⟩

theorem step_arm_inv (cfg : AppConfig) (s t : State)
    (h : step cfg s Event.arm = some t) :
    s.atArm = true ∧ t = { armCheck cfg s with atArm := false } := by
  cases ha : s.atArm
  · simp [step, ha] at h
  · simp only [step, ha, if_true, Option.some.injEq] at h
    exact ⟨rfl, h.symm⟩

theorem armCheck_eq (cfg : AppConfig) (s : State) :
    armCheck cfg s =
      if cfg.RetryCount ≤ s.failCounter ∧ s.isAlerting = false then
        { s with sessions := s.sessions ++ [newSession] }
      else s := by
  unfold armCheck
  cases ha : s.isAlerting
  · by_cases hc : cfg.RetryCount ≤ s.failCounter <;> simp [hc, ha]
  · simp [ha]

theorem probesOf_cons (e : Event) (es : List Event) :
    probesOf (e :: es) = probesOf [e] ++ probesOf es := by
  cases e <;> simp [probesOf]

theorem countFrom_append (c : Int) (a b : List Bool) :
    countFrom c (a ++ b) = countFrom (countFrom c a) b := by
  induction a generalizing c with
  | nil => rfl
  | cons x xs ih => simp [countFrom, ih]

theorem step_arm_eq (cfg : AppConfig) (s : State) (h : s.atArm = true) :
    step cfg s Event.arm = some { armCheck cfg s with atArm := false } := by
  simp [step, h]

theorem armCheck_frame (cfg : AppConfig) (s : State) :
    (armCheck cfg s).failCounter = s.failCounter ∧
      (armCheck cfg s).isAlerting = s.isAlerting ∧
      (armCheck cfg s).pending = s.pending ∧ (armCheck cfg s).ran = s.ran ∧
      (armCheck cfg s).effects = s.effects ∧ (armCheck cfg s).clock = s.clock := by
  rw [armCheck_eq]
  split <;> simp

/-- What a transition does to the queue of closures, to the history of
closures that have run, and to `failCounter`. -/
theorem step_counter (cfg : AppConfig) (s t : State) (e : Event)
    (h : step cfg s e = some t) :
    ∃ new, t.ran = s.ran ++ new ∧ t.failCounter = countFrom s.failCounter new ∧
      s.pending ++ probesOf [e] = new ++ t.pending := by
  cases e with
  | probe b =>
    obtain ⟨_, rfl⟩ := step_probe_inv cfg b s t h
    exact ⟨[], by simp, rfl, by simp [probesOf]⟩
  | ui =>
    obtain ⟨b, rest, hp, hb⟩ := step_ui_inv cfg s t h
    obtain ⟨h1, _, h3, h4, _⟩ := syncBody_frame cfg b _ t hb
    refine ⟨[b], h4, ?_, ?_⟩
    · rw [h1]
      cases b <;> simp [countFrom]
    · rw [h3, hp]
      simp [probesOf]
  | arm =>
    obtain ⟨_, rfl⟩ := step_arm_inv cfg s t h
    obtain ⟨h1, _, h3, h4, _⟩ := armCheck_frame cfg s
    exact ⟨[], by simpa using h4, by simpa [countFrom] using h1, by simpa [probesOf] using h3.symm⟩
  | sess i k =>
    obtain ⟨h1, _, _, h3, h4⟩ := stepSession_frame cfg s t i k h
    exact ⟨[], by simpa using h4, by simpa [countFrom] using h1, by simpa [probesOf] using h3.symm⟩

theorem run_counter (cfg : AppConfig) (tr : List Event) (s t : State)
    (h : run cfg s tr = some t) :
    ∃ new, t.ran = s.ran ++ new ∧ t.failCounter = countFrom s.failCounter new ∧
      s.pending ++ probesOf tr = new ++ t.pending := by
  induction tr generalizing s with
  | nil =>
    simp only [run, Option.some.injEq] at h
    subst h
    exact ⟨[], by simp, rfl, by simp [probesOf]⟩
  | cons e es ih =>
    simp only [run] at h
    cases hs : step cfg s e with
    | none => simp [hs] at h
    | some u =>
      simp only [hs] at h
      obtain ⟨n1, hr1, hc1, hp1⟩ := step_counter cfg s u e hs
      obtain ⟨n2, hr2, hc2, hp2⟩ := ih u h
      refine ⟨n1 ++ n2, ?_, ?_, ?_⟩
      · rw [hr2, hr1, List.append_assoc]
      · rw [hc2, hc1, countFrom_append]
      · rw [probesOf_cons, ← List.append_assoc, hp1, List.append_assoc, hp2,
          List.append_assoc]

/-! ## The failure counter and the trailing failed probes -/

theorem trailingFails_snoc (ps : List Bool) (b : Bool) :
    trailingFails (ps ++ [b]) = if b then 0 else trailingFails ps + 1 := by
  cases b <;> simp [trailingFails, List.takeWhile]

theorem countFrom_snoc (c : Int) (ps : List Bool) (b : Bool) :
    countFrom c (ps ++ [b]) = if b then 0 else countFrom c ps + 1 := by
  rw [countFrom_append]
  cases b <;> simp [countFrom]

theorem countFrom_zero (ps : List Bool) :
    countFrom 0 ps = (trailingFails ps : Int) := by
  induction ps using List.reverseRecOn with
  | nil => simp [countFrom, trailingFails]
  | append_singleton xs b ih =>
    rw [countFrom_snoc, trailingFails_snoc, ih]
    cases b <;> simp

theorem trailingFails_split (ps : List Bool) :
    ∃ pre suf, ps = pre ++ suf ∧ (∀ b ∈ suf, b = false) ∧
      pre.getLast? ≠ some false ∧ trailingFails ps = suf.length := by
  induction ps using List.reverseRecOn with
  | nil => exact ⟨[], [], by simp [trailingFails]⟩
  | append_singleton xs b ih =>
    obtain ⟨pre, suf, hps, hall, hlast, hlen⟩ := ih
    cases b with
    | true =>
      refine ⟨xs ++ [true], [], by simp, by simp, by simp, ?_⟩
      simp [trailingFails_snoc]
    | false =>
      refine ⟨pre, suf ++ [false], by simp [hps], ?_, hlast, ?_⟩
      · intro b hb
        rcases List.mem_append.1 hb with h | h
        · exact hall b h
        · simpa using h
      · simp [trailingFails_snoc, hlen]

/-- In every state reached from the initial state, `failCounter` is the number of
failed probes at the end of the sequence of closures that have run, and the
probes of the run are those closures followed by the queued ones. -/
theorem reachable_counter (cfg : AppConfig) (tr : List Event) (s : State)
    (h : run cfg init tr = some s) :
    s.failCounter = (trailingFails s.ran : Int) ∧ probesOf tr = s.ran ++ s.pending := by
  obtain ⟨new, hr, hc, hp⟩ := run_counter cfg tr init s h
  have hran : s.ran = new := by simpa [init] using hr
  refine ⟨?_, ?_⟩
  · rw [hc, hran]
    exact countFrom_zero new
  · rw [hran]
    simpa [init] using hp

theorem probesOf_cyclesOf (probes : List Bool) : probesOf (cyclesOf probes) = probes := by
  induction probes with
  | nil => rfl
  | cons b bs ih => simp [cyclesOf, probesOf, ih]

theorem run_cyclesOf_isSome (cfg : AppConfig) (probes : List Bool) (s : State)
    (h : s.atArm = false) (hp : s.pending = []) :
    ∃ t, run cfg s (cyclesOf probes) = some t ∧ t.atArm = false ∧ t.pending = [] ∧
      t.ran = s.ran ++ probes := by
  induction probes generalizing s with
  | nil => exact ⟨s, rfl, h, hp, by simp⟩
  | cons b bs ih =>
    obtain ⟨u, hu⟩ := syncBody_isSome cfg b
      { s with pending := [], ran := s.ran ++ [b], atArm := true }
    obtain ⟨_, hu2, hu3, hu4, _⟩ := syncBody_frame cfg b _ u hu
    have hf := armCheck_frame cfg u
    obtain ⟨t, ht, hta, htp, htr⟩ := ih { armCheck cfg u with atArm := false } rfl
      (by simpa using hf.2.2.1.trans hu3)
    refine ⟨t, ?_, hta, htp, ?_⟩
    · simp only [cyclesOf, run, step_probe_eq cfg b s h]
      rw [step_ui_eq cfg _ b [] (by simp [hp])]
      simp only [hu]
      rw [step_arm_eq cfg u (by simpa using hu2)]
      exact ht
    · rw [htr]
      simp [hf.2.2.2.1, hu4]

/-! ## White space -/

theorem trimRight_eq_nil (cs : List Char) :
    trimRight cs = [] ↔ ∀ c ∈ cs, isSpace c = true := by
  simp [trimRight, List.dropWhile_eq_nil_iff]

theorem trimLeft_all (cs : List Char) :
    (∀ c ∈ trimLeft cs, isSpace c = true) ↔ ∀ c ∈ cs, isSpace c = true := by
  induction cs with
  | nil => simp [trimLeft]
  | cons x xs ih =>
    unfold trimLeft at ih ⊢
    by_cases hx : isSpace x = true
    · simp [List.dropWhile_cons, hx, ih]
    · simp only [List.dropWhile_cons, hx, if_false, Bool.false_eq_true]

theorem TrimSpace_eq_empty (s : String) :
    TrimSpace s = "" ↔ ∀ c ∈ s.data, isSpace c = true := by
  unfold TrimSpace
  rw [← trimLeft_all, ← trimRight_eq_nil]
  constructor
  · intro h
    have := congrArg String.data h
    simpa using this
  · intro h
    rw [h]

/-! ## Claims about the failure counter -/

/-- C4: for every finite sequence of probe results, the watchdog loop can run
one cycle per result from the initial state with every closure run; and after
any run from the initial state whose probes are that sequence, the sequence is
made of the probes whose closures have run followed by those still queued, and
`failCounter` is the length of the longest suffix of failed probes among the
ones that have run: they split into a part that does not end in a failed probe
and a part of failed probes whose length is `failCounter`. Once the closure of
the last cycle has run, that is the longest failed suffix of the whole
sequence. -/
theorem C4_failCounter_is_longest_failed_suffix (cfg : AppConfig) (probes : List Bool) :
    (∃ s, run cfg init (cyclesOf probes) = some s ∧ probesOf (cyclesOf probes) = probes ∧
      s.pending = [] ∧ s.ran = probes) ∧
    ∀ tr s, probesOf tr = probes → run cfg init tr = some s →
      probes = s.ran ++ s.pending ∧
      ∃ pre suf, s.ran = pre ++ suf ∧ (∀ b ∈ suf, b = false) ∧
        pre.getLast? ≠ some false ∧ s.failCounter = (suf.length : Int) := by
  constructor
  · obtain ⟨t, ht, _, htp, htr⟩ := run_cyclesOf_isSome cfg probes init rfl rfl
    exact ⟨t, ht, probesOf_cyclesOf probes, htp, by simpa [init] using htr⟩
  · intro tr s hp hr
    obtain ⟨hfc, hpr⟩ := reachable_counter cfg tr s hr
    refine ⟨by rw [← hp, hpr], ?_⟩
    obtain ⟨pre, suf, h1, h2, h3, h4⟩ := trailingFails_split s.ran
    exact ⟨pre, suf, h1, h2, h3, by rw [hfc, h4]⟩

/-- Witness for C4: three cycles of the default configuration, failed,
successful, failed. -/
theorem C4_failCounter_is_longest_failed_suffix_witness :
    [false, true, false] = [false, true, false] ++ [] ∧
    ∃ pre suf, [false, true, false] = pre ++ suf ∧ (∀ b ∈ suf, b = false) ∧
      pre.getLast? ≠ some false ∧ (1 : Int) = (suf.length : Int) :=
  (C4_failCounter_is_longest_failed_suffix defaultCfg [false, true, false]).2
    (cyclesOf [false, true, false])
    { failCounter := 1, isAlerting := false, atArm := false, pending := [],
      ran := [false, true, false], clock := 0, sessions := [], effects := [] }
    (by decide) (by decide)

/-! ## Claims about `stopCountdown` and `runActionCommand` -/

theorem stopCountdownTimes_isSome (n : Nat) (s : State) :
    ∃ t, stopCountdownTimes n s = some t := by
  induction n generalizing s with
  | zero => exact ⟨s, rfl⟩
  | succ n ih =>
    obtain ⟨t, ht⟩ := ih
      (if s.isAlerting then
        { s with sessions := (deliverCancel s.sessions).getD s.sessions } else s)
    exact ⟨t, by simp only [stopCountdownTimes, stopCountdown_eq, Option.some_bind, ht]⟩

/-- C8: when `isAlerting` is false, `stopCountdown` returns and leaves the whole
state as it was (no goroutine receives a cancel signal, `isAlerting` and
`failCounter` keep their values), so every later run is the run without the
call; and in any state, any number of calls in a row all return. -/
theorem C8_stopCountdown_noop_and_never_blocks (cfg : AppConfig) (s : State) :
    (s.isAlerting = false →
      stopCountdown s = some s ∧
      ∀ tr, (stopCountdown s).bind (fun t => run cfg t tr) = run cfg s tr) ∧
    (∃ t, stopCountdown s = some t) ∧
    (∀ n, ∃ t, stopCountdownTimes n s = some t) := by
  refine ⟨?_, ⟨_, stopCountdown_eq s⟩, fun n => stopCountdownTimes_isSome n s⟩
  intro h
  have hs : stopCountdown s = some s := by rw [stopCountdown_eq, h]; rfl
  exact ⟨hs, fun tr => by rw [hs]; rfl⟩

/-- Witness for C8: a state with a counting goroutine whose flag is already down. -/
theorem C8_stopCountdown_noop_and_never_blocks_witness :
    stopCountdown
        { failCounter := 0, isAlerting := false, atArm := false, pending := [], ran := [],
          clock := 1,
          sessions :=
            [{ pc := Pc.waiting, remaining := 5, parked := 0, ticks := 0, calls := 0 }],
          effects := [] } =
      some
        { failCounter := 0, isAlerting := false, atArm := false, pending := [], ran := [],
          clock := 1,
          sessions :=
            [{ pc := Pc.waiting, remaining := 5, parked := 0, ticks := 0, calls := 0 }],
          effects := [] } :=
  ((C8_stopCountdown_noop_and_never_blocks defaultCfg
    { failCounter := 0, isAlerting := false, atArm := false, pending := [], ran := [],
          clock := 1,
          sessions :=
            [{ pc := Pc.waiting, remaining := 5, parked := 0, ticks := 0, calls := 0 }],
          effects := [] }).1 rfl).1

/-- C9: when every character of `ActionCommand` is white space (in particular
when it is empty), `runActionCommand` writes the skip line and nothing else and
launches no process; when some character is not white space it writes the
execution line and attempts the launch of the command. -/
theorem C9_blank_command_skipped (cfg : AppConfig) :
    ((∀ c ∈ cfg.ActionCommand.data, isSpace c = true) →
      runActionCommand cfg = [Effect.logSkip]) ∧
    ((∃ c ∈ cfg.ActionCommand.data, isSpace c = false) →
      runActionCommand cfg =
        [Effect.logExec cfg.ActionCommand, Effect.launch cfg.ActionCommand]) := by
  constructor
  · intro h
    have := (TrimSpace_eq_empty cfg.ActionCommand).2 h
    simp [runActionCommand, this]
  · intro ⟨c, hc, hs⟩
    have hne : TrimSpace cfg.ActionCommand ≠ "" := by
      intro h
      have := (TrimSpace_eq_empty cfg.ActionCommand).1 h c hc
      simp [hs] at this
    simp [runActionCommand, hne]

/-- Witness for C9: a command of blanks and a tab, and the default command. -/
theorem C9_blank_command_skipped_witness :
    runActionCommand { defaultCfg with ActionCommand := "  \t " } = [Effect.logSkip] ∧
    runActionCommand defaultCfg =
      [Effect.logExec "shutdown /h", Effect.launch "shutdown /h"] :=
  ⟨(C9_blank_command_skipped { defaultCfg with ActionCommand := "  \t " }).1 (by decide),
   (C9_blank_command_skipped defaultCfg).2 ⟨'s', by decide, by decide⟩⟩

/-! ## A countdown goroutine running on its own -/

theorem ownRun_succ (cfg : AppConfig) (i j : Nat) (s : State) :
    ownRun cfg i (j + 1) s = ownStep cfg i (ownRun cfg i j s) := by
  induction j generalizing s with
  | zero => rfl
  | succ j ih =>
    show ownRun cfg i (j + 1) (ownStep cfg i s) = _
    rw [ih]
    rfl

theorem stepSession_eq (cfg : AppConfig) (s : State) (i : Nat) (k : SKind)
    (x y : Session) (w : Option Bool) (eff : List Effect)
    (hx : s.sessions[i]? = some x) (hs : sessionStep cfg s.clock k x = some (y, w, eff)) :
    stepSession cfg s i k =
      some (withSession s i y (w.getD s.isAlerting) (s.effects ++ eff) (s.clock + 1)) := by
  simp [stepSession, hx, hs, withSession]

theorem ownStep_eq (cfg : AppConfig) (s : State) (i : Nat) (k : SKind)
    (x y : Session) (w : Option Bool) (eff : List Effect)
    (hx : s.sessions[i]? = some x) (hk : ownNext x.pc = some k)
    (hs : sessionStep cfg s.clock k x = some (y, w, eff)) :
    ownStep cfg i s =
      withSession s i y (w.getD s.isAlerting) (s.effects ++ eff) (s.clock + 1) := by
  simp [ownStep, hx, hk, stepSession_eq cfg s i k x y w eff hx hs]

theorem withSession_get (s : State) (i : Nat) (y : Session) (a : Bool) (effs : List Effect)
    (c : Nat) (hi : i < s.sessions.length) :
    (withSession s i y a effs c).sessions[i]? = some y := by
  simp [withSession, hi]

theorem withSession_twice (s : State) (i : Nat) (y z : Session) (a b : Bool)
    (e1 e2 : List Effect) (c1 c2 : Nat) :
    withSession (withSession s i y a e1 c1) i z b e2 c2 = withSession s i z b e2 c2 := by
  simp [withSession, List.set_set]

theorem ownStep_withSession (cfg : AppConfig) (s : State) (i : Nat) (k : SKind)
    (x y : Session) (a : Bool) (effs : List Effect) (c : Nat) (w : Option Bool)
    (eff : List Effect)
    (hi : i < s.sessions.length) (hk : ownNext x.pc = some k)
    (hs : sessionStep cfg c k x = some (y, w, eff)) :
    ownStep cfg i (withSession s i x a effs c) =
      withSession s i y (w.getD a) (effs ++ eff) (c + 1) := by
  rw [ownStep_eq cfg _ i k x y w eff (withSession_get s i x a effs c hi) hk hs,
    withSession_twice]
  rfl

theorem own_waiting (cfg : AppConfig) (s : State) (i : Nat)
    (hx : s.sessions[i]? = some newSession) (k : Nat)
    (hk : (k : Int) < max cfg.WaitDuration 1) :
    ownRun cfg i (2 * k + 1) s =
      withSession s i
        { pc := Pc.waiting, remaining := cfg.WaitDuration - k, parked := s.clock + 2 * k,
          ticks := k, calls := 0 }
        true s.effects (s.clock + 2 * k + 1) := by
  have hi : i < s.sessions.length := (List.getElem?_eq_some.1 hx).1
  induction k with
  | zero =>
    show ownStep cfg i s = _
    rw [ownStep_eq cfg s i SKind.start newSession
      { pc := Pc.waiting, remaining := cfg.WaitDuration, parked := s.clock, ticks := 0,
        calls := 0 }
      (some true) [] hx rfl rfl]
    simp
  | succ k ih =>
    have hk1 : (k : Int) < max cfg.WaitDuration 1 := by push_cast at hk; omega
    have hlt : (k : Int) + 1 < cfg.WaitDuration := by
      push_cast at hk
      rcases max_cases cfg.WaitDuration 1 with h | h <;> omega
    have e : 2 * (k + 1) + 1 = (2 * k + 1) + 1 + 1 := by ring
    rw [e, ownRun_succ, ownRun_succ, ih hk1]
    rw [ownStep_withSession cfg s i SKind.tick
      { pc := Pc.waiting, remaining := cfg.WaitDuration - k, parked := s.clock + 2 * k,
        ticks := k, calls := 0 }
      { pc := Pc.ticked, remaining := cfg.WaitDuration - k, parked := s.clock + 2 * k,
        ticks := k + 1, calls := 0 }
      true s.effects _ none [] hi rfl rfl]
    have hb : sessionStep cfg (s.clock + 2 * k + 1 + 1) SKind.body
        { pc := Pc.ticked, remaining := cfg.WaitDuration - k, parked := s.clock + 2 * k,
          ticks := k + 1, calls := 0 } =
        some ({ pc := Pc.waiting, remaining := cfg.WaitDuration - (k + 1 : Nat),
                parked := s.clock + 2 * (k + 1), ticks := k + 1, calls := 0 }, none, []) := by
      have hpos : ¬ (cfg.WaitDuration - (k : Int) - 1 ≤ 0) := by omega
      simp only [sessionStep, hpos, if_false]
      push_cast
      congr 3
      ring
    rw [ownStep_withSession cfg s i SKind.body
      { pc := Pc.ticked, remaining := cfg.WaitDuration - k, parked := s.clock + 2 * k,
        ticks := k + 1, calls := 0 } _ _ _ _ none [] hi rfl hb]
    simp only [Option.getD_none, List.append_nil]
    congr 1

theorem own_ticked (cfg : AppConfig) (s : State) (i : Nat)
    (hx : s.sessions[i]? = some newSession) (k : Nat)
    (hk : (k : Int) < max cfg.WaitDuration 1) :
    ownRun cfg i (2 * k + 2) s =
      withSession s i
        { pc := Pc.ticked, remaining := cfg.WaitDuration - k, parked := s.clock + 2 * k,
          ticks := k + 1, calls := 0 }
        true s.effects (s.clock + 2 * k + 2) := by
  have hi : i < s.sessions.length := (List.getElem?_eq_some.1 hx).1
  rw [ownRun_succ, own_waiting cfg s i hx k hk]
  rw [ownStep_withSession cfg s i SKind.tick
    { pc := Pc.waiting, remaining := cfg.WaitDuration - k, parked := s.clock + 2 * k,
      ticks := k, calls := 0 }
    { pc := Pc.ticked, remaining := cfg.WaitDuration - k, parked := s.clock + 2 * k,
      ticks := k + 1, calls := 0 }
    true s.effects _ none [] hi rfl rfl]
  simp

theorem own_expiring (cfg : AppConfig) (s : State) (i : Nat)
    (hx : s.sessions[i]? = some newSession) (m : Nat)
    (hm : (m : Int) = max cfg.WaitDuration 1) :
    ownRun cfg i (2 * m + 1) s =
      withSession s i
        { pc := Pc.expiring, remaining := cfg.WaitDuration - m,
          parked := s.clock + 2 * (m - 1), ticks := m, calls := 0 }
        true s.effects (s.clock + 2 * m + 1) := by
  have hi : i < s.sessions.length := (List.getElem?_eq_some.1 hx).1
  obtain ⟨k, rfl⟩ : ∃ k, m = k + 1 := by
    refine ⟨m - 1, ?_⟩
    have : (1 : Int) ≤ m := by rw [hm]; exact le_max_right _ _
    omega
  have hk : (k : Int) < max cfg.WaitDuration 1 := by rw [← hm]; push_cast; omega
  have e : 2 * (k + 1) + 1 = (2 * k + 2) + 1 := by ring
  rw [e, ownRun_succ, own_ticked cfg s i hx k hk]
  have hb : sessionStep cfg (s.clock + 2 * k + 2) SKind.body
      { pc := Pc.ticked, remaining := cfg.WaitDuration - k, parked := s.clock + 2 * k,
        ticks := k + 1, calls := 0 } =
      some ({ pc := Pc.expiring, remaining := cfg.WaitDuration - (k + 1 : Nat),
              parked := s.clock + 2 * (k + 1 - 1), ticks := k + 1, calls := 0 },
        none, []) := by
    have hle : cfg.WaitDuration - (k : Int) - 1 ≤ 0 := by
      have := le_max_left cfg.WaitDuration 1
      rw [← hm] at this
      push_cast at this
      omega
    simp only [sessionStep, hle, if_true]
    push_cast
    congr 3
    ring
  rw [ownStep_withSession cfg s i SKind.body
    { pc := Pc.ticked, remaining := cfg.WaitDuration - k, parked := s.clock + 2 * k,
      ticks := k + 1, calls := 0 } _ _ _ _ none [] hi rfl hb]
  simp only [Option.getD_none, List.append_nil, Nat.add_sub_cancel, Nat.cast_add,
    Nat.cast_one]
  congr 1

theorem own_clearing (cfg : AppConfig) (s : State) (i : Nat)
    (hx : s.sessions[i]? = some newSession) (m : Nat)
    (hm : (m : Int) = max cfg.WaitDuration 1) :
    ownRun cfg i (2 * m + 2) s =
      withSession s i
        { pc := Pc.clearing, remaining := cfg.WaitDuration - m,
          parked := s.clock + 2 * (m - 1), ticks := m, calls := 1 }
        true (s.effects ++ runActionCommand cfg) (s.clock + 2 * m + 2) := by
  have hi : i < s.sessions.length := (List.getElem?_eq_some.1 hx).1
  rw [ownRun_succ, own_expiring cfg s i hx m hm]
  rw [ownStep_withSession cfg s i SKind.act
    { pc := Pc.expiring, remaining := cfg.WaitDuration - m,
      parked := s.clock + 2 * (m - 1), ticks := m, calls := 0 }
    { pc := Pc.clearing, remaining := cfg.WaitDuration - m,
      parked := s.clock + 2 * (m - 1), ticks := m, calls := 1 }
    true s.effects _ none (runActionCommand cfg) hi rfl rfl]
  simp

theorem own_done (cfg : AppConfig) (s : State) (i : Nat)
    (hx : s.sessions[i]? = some newSession) (m : Nat)
    (hm : (m : Int) = max cfg.WaitDuration 1) (j : Nat) :
    ownRun cfg i (2 * m + 3 + j) s =
      withSession s i
        { pc := Pc.done, remaining := cfg.WaitDuration - m,
          parked := s.clock + 2 * (m - 1), ticks := m, calls := 1 }
        false (s.effects ++ runActionCommand cfg) (s.clock + 2 * m + 3) := by
  have hi : i < s.sessions.length := (List.getElem?_eq_some.1 hx).1
  induction j with
  | zero =>
    show ownRun cfg i (2 * m + 2 + 1) s = _
    rw [ownRun_succ, own_clearing cfg s i hx m hm]
    rw [ownStep_withSession cfg s i SKind.clear
      { pc := Pc.clearing, remaining := cfg.WaitDuration - m,
        parked := s.clock + 2 * (m - 1), ticks := m, calls := 1 }
      { pc := Pc.done, remaining := cfg.WaitDuration - m,
        parked := s.clock + 2 * (m - 1), ticks := m, calls := 1 }
      true _ _ (some false) [] hi rfl rfl]
    simp
  | succ j ih =>
    show ownRun cfg i (2 * m + 3 + j + 1) s = _
    rw [ownRun_succ, ih]
    simp [ownStep, withSession_get s i _ _ _ _ hi, ownNext]

/-- C2: a goroutine created by `go startCountdown()` with `WaitDuration = n`
that runs with no cancel signal reaching it, where `m = max n 1` (for
`n >= 0` in particular): through its first `2 m` steps it is still counting,
has called `runActionCommand` zero times and has taken at most `m` ticks; the
step after that is the body of tick number `m`, which finds the countdown
expired; the next step is the one call of `runActionCommand`; the step after
sets `isAlerting = false` and returns, and from then on nothing changes, so the
call count stays 1. -/
theorem C2_uncancelled_session_fires_once_on_tick_m (cfg : AppConfig) (s : State) (i : Nat)
    (hx : s.sessions[i]? = some newSession) (m : Nat)
    (hm : (m : Int) = max cfg.WaitDuration 1) :
    (∀ j, j ≤ 2 * m + 1 → ∃ y, (ownRun cfg i j s).sessions[i]? = some y ∧
      y.calls = 0 ∧ y.ticks ≤ m ∧ (ownRun cfg i j s).effects = s.effects ∧
      (j < 2 * m + 1 → y.pc = Pc.spawned ∨ y.pc = Pc.waiting ∨ y.pc = Pc.ticked)) ∧
    (∃ y, (ownRun cfg i (2 * m + 1) s).sessions[i]? = some y ∧
      y.pc = Pc.expiring ∧ y.ticks = m ∧ y.calls = 0) ∧
    (∃ y, (ownRun cfg i (2 * m + 2) s).sessions[i]? = some y ∧
      y.pc = Pc.clearing ∧ y.ticks = m ∧ y.calls = 1 ∧
      (ownRun cfg i (2 * m + 2) s).effects = s.effects ++ runActionCommand cfg) ∧
    (∀ j, 2 * m + 3 ≤ j → ∃ y, (ownRun cfg i j s).sessions[i]? = some y ∧
      y.pc = Pc.done ∧ y.ticks = m ∧ y.calls = 1 ∧
      (ownRun cfg i j s).effects = s.effects ++ runActionCommand cfg ∧
      (ownRun cfg i j s).isAlerting = false) := by
  have hi : i < s.sessions.length := (List.getElem?_eq_some.1 hx).1
  have hlt : ∀ k : Nat, k < m → (k : Int) < max cfg.WaitDuration 1 := by
    intro k hk
    rw [← hm]
    exact_mod_cast hk
  refine ⟨?_, ?_, ?_, ?_⟩
  · intro j hj
    rcases Nat.even_or_odd' j with ⟨k, rfl | rfl⟩
    · cases k with
      | zero => exact ⟨newSession, hx, rfl, Nat.zero_le _, rfl, fun _ => Or.inl rfl⟩
      | succ k =>
        have hk : k < m := by omega
        have e : 2 * (k + 1) = 2 * k + 2 := by ring
        rw [e, own_ticked cfg s i hx k (hlt k hk)]
        exact ⟨_, withSession_get s i _ _ _ _ hi, rfl, hk, rfl, fun _ => Or.inr (Or.inr rfl)⟩
    · rcases Nat.lt_or_ge k m with hk | hk
      · rw [own_waiting cfg s i hx k (hlt k hk)]
        exact ⟨_, withSession_get s i _ _ _ _ hi, rfl, Nat.le_of_lt hk, rfl,
          fun _ => Or.inr (Or.inl rfl)⟩
      · have hkm : k = m := by omega
        subst hkm
        rw [own_expiring cfg s i hx k hm]
        exact ⟨_, withSession_get s i _ _ _ _ hi, rfl, Nat.le_refl _, rfl,
          fun h => absurd h (Nat.lt_irrefl _)⟩
  · rw [own_expiring cfg s i hx m hm]
    exact ⟨_, withSession_get s i _ _ _ _ hi, rfl, rfl, rfl⟩
  · rw [own_clearing cfg s i hx m hm]
    exact ⟨_, withSession_get s i _ _ _ _ hi, rfl, rfl, rfl, rfl⟩
  · intro j hj
    obtain ⟨d, rfl⟩ : ∃ d, j = 2 * m + 3 + d := ⟨j - (2 * m + 3), by omega⟩
    rw [own_done cfg s i hx m hm d]
    exact ⟨_, withSession_get s i _ _ _ _ hi, rfl, rfl, rfl, rfl, rfl⟩

/-- Witness for C2: the default configuration (`WaitDuration = 180`) after the
third failed cycle has armed the first goroutine. -/
theorem C2_uncancelled_session_fires_once_on_tick_m_witness :
    ∃ y, (ownRun defaultCfg 0 (2 * 180 + 2)
        { failCounter := 3, isAlerting := false, atArm := false, pending := [],
          ran := [false, false, false], clock := 0, sessions := [newSession],
          effects := [Effect.logLost] }).sessions[0]? = some y ∧
      y.pc = Pc.clearing ∧ y.ticks = 180 ∧ y.calls = 1 ∧
      (ownRun defaultCfg 0 (2 * 180 + 2)
        { failCounter := 3, isAlerting := false, atArm := false, pending := [],
          ran := [false, false, false], clock := 0, sessions := [newSession],
          effects := [Effect.logLost] }).effects =
        [Effect.logLost] ++ runActionCommand defaultCfg :=
  (C2_uncancelled_session_fires_once_on_tick_m defaultCfg
    { failCounter := 3, isAlerting := false, atArm := false, pending := [],
      ran := [false, false, false], clock := 0, sessions := [newSession],
      effects := [Effect.logLost] } 0 rfl 180 (by decide)).2.2.1

/-! ## How one goroutine evolves in arbitrary runs -/

theorem cancelAt_length (m : Nat) (ss : List Session) :
    (cancelAt m ss).length = ss.length := by
  induction ss with
  | nil => rfl
  | cons x xs ih =>
    unfold cancelAt
    split <;> simp [ih]

theorem cancelAt_get (m : Nat) (ss : List Session) (i : Nat) (y : Session)
    (h : ss[i]? = some y) :
    (cancelAt m ss)[i]? = some y ∨
      (y.pc = Pc.waiting ∧ (cancelAt m ss)[i]? = some { y with pc := Pc.cancelled }) := by
  induction ss generalizing i with
  | nil => simp at h
  | cons x xs ih =>
    unfold cancelAt
    by_cases hw : x.pc = Pc.waiting ∧ x.parked = m
    · rw [if_pos hw]
      cases i with
      | zero =>
        simp only [List.getElem?_cons_zero, Option.some.injEq] at h
        subst h
        exact Or.inr ⟨hw.1, by simp⟩
      | succ j =>
        left
        simpa using h
    · rw [if_neg hw]
      cases i with
      | zero =>
        left
        simpa using h
      | succ j =>
        simp only [List.getElem?_cons_succ] at h ⊢
        exact ih j h

theorem deliverCancel_get (ss : List Session) (i : Nat) (y : Session)
    (h : ss[i]? = some y) :
    ((deliverCancel ss).getD ss)[i]? = some y ∨
      (y.pc = Pc.waiting ∧
        ((deliverCancel ss).getD ss)[i]? = some { y with pc := Pc.cancelled }) := by
  unfold deliverCancel
  cases minParked ss with
  | none => exact Or.inl (by simpa using h)
  | some m => simpa using cancelAt_get m ss i y h

theorem deliverCancel_length (ss : List Session) :
    ((deliverCancel ss).getD ss).length = ss.length := by
  unfold deliverCancel
  cases minParked ss with
  | none => simp
  | some m => simpa using cancelAt_length m ss

/-- What a single transition can do to goroutine `i`: nothing, hand it the
cancel signal while it waits in its `select` (only the closure of a successful
probe does that), or make it take one of its own steps. -/
theorem step_session_cases (cfg : AppConfig) (s t : State) (e : Event) (i : Nat)
    (y : Session) (h : step cfg s e = some t) (hy : s.sessions[i]? = some y) :
    ∃ z, t.sessions[i]? = some z ∧
      (z = y ∨
        ((e = Event.ui ∧ s.pending.head? = some true) ∧ y.pc = Pc.waiting ∧
          z = { y with pc := Pc.cancelled }) ∨
        ∃ now k w eff, sessionStep cfg now k y = some (z, w, eff)) := by
  cases e with
  | probe b =>
    obtain ⟨_, rfl⟩ := step_probe_inv cfg b s t h
    exact ⟨y, hy, Or.inl rfl⟩
  | ui =>
    obtain ⟨b, rest, hp, hu⟩ := step_ui_inv cfg s t h
    cases b with
    | false =>
      rw [syncBody_false] at hu
      simp only [Option.some.injEq] at hu
      subst hu
      refine ⟨y, ?_, Or.inl rfl⟩
      split <;> simpa using hy
    | true =>
      rw [syncBody_true] at hu
      simp only [Option.some.injEq] at hu
      subst hu
      by_cases ha : s.isAlerting = true
      · simp only [ha, if_true]
        rcases deliverCancel_get s.sessions i y hy with h1 | ⟨hw, h1⟩
        · exact ⟨y, h1, Or.inl rfl⟩
        · exact ⟨_, h1, Or.inr (Or.inl ⟨⟨trivial, by simp [hp]⟩, hw, rfl⟩)⟩
      · simp only [ha, if_false]
        exact ⟨y, hy, Or.inl rfl⟩
  | arm =>
    obtain ⟨_, rfl⟩ := step_arm_inv cfg s t h
    refine ⟨y, ?_, Or.inl rfl⟩
    show (armCheck cfg s).sessions[i]? = some y
    rw [armCheck_eq]
    split
    · have hi : i < s.sessions.length := (List.getElem?_eq_some.1 hy).1
      simpa [List.getElem?_append_left hi] using hy
    · exact hy
  | sess j k =>
    have h : stepSession cfg s j k = some t := h
    unfold stepSession at h
    cases hx : s.sessions[j]? with
    | none => simp [hx] at h
    | some x =>
      simp only [hx] at h
      cases hs : sessionStep cfg s.clock k x with
      | none => simp [hs] at h
      | some r =>
        obtain ⟨z, w, eff⟩ := r
        simp only [hs, Option.some.injEq] at h
        subst h
        have hj : j < s.sessions.length := (List.getElem?_eq_some.1 hx).1
        by_cases hij : j = i
        · subst hij
          rw [hx] at hy
          simp only [Option.some.injEq] at hy
          subst hy
          exact ⟨z, by simp [hj], Or.inr (Or.inr ⟨s.clock, k, w, eff, hs⟩)⟩
        · exact ⟨y, by simp [List.getElem?_set_ne hij, hy], Or.inl rfl⟩

theorem step_sessions_origin (cfg : AppConfig) (s t : State) (e : Event) (i : Nat)
    (z : Session) (h : step cfg s e = some t) (hz : t.sessions[i]? = some z) :
    (∃ y, s.sessions[i]? = some y) ∨ z = newSession := by
  have hi : i < t.sessions.length := (List.getElem?_eq_some.1 hz).1
  have key : t.sessions.length = s.sessions.length → ∃ y, s.sessions[i]? = some y := by
    intro hl
    rw [hl] at hi
    exact ⟨s.sessions[i], List.getElem?_eq_getElem hi⟩
  cases e with
  | probe b =>
    obtain ⟨_, rfl⟩ := step_probe_inv cfg b s t h
    exact Or.inl ⟨z, hz⟩
  | ui =>
    left
    apply key
    obtain ⟨b, rest, hp, hu⟩ := step_ui_inv cfg s t h
    cases b with
    | false =>
      rw [syncBody_false] at hu
      simp only [Option.some.injEq] at hu
      subst hu
      split <;> rfl
    | true =>
      rw [syncBody_true] at hu
      simp only [Option.some.injEq] at hu
      subst hu
      split
      · exact deliverCancel_length s.sessions
      · rfl
  | arm =>
    obtain ⟨_, rfl⟩ := step_arm_inv cfg s t h
    have hz : (armCheck cfg s).sessions[i]? = some z := hz
    rw [armCheck_eq] at hz
    split at hz
    · by_cases hlt : i < s.sessions.length
      · exact Or.inl ⟨s.sessions[i], List.getElem?_eq_getElem hlt⟩
      · right
        have hge : s.sessions.length ≤ i := Nat.le_of_not_lt hlt
        rw [show ({ s with sessions := s.sessions ++ [newSession] } : State).sessions =
          s.sessions ++ [newSession] from rfl, List.getElem?_append_right hge] at hz
        cases hd : i - s.sessions.length with
        | zero => simpa [hd] using hz.symm
        | succ d => simp [hd] at hz
    · exact Or.inl ⟨z, hz⟩
  | sess j k =>
    left
    apply key
    exact (stepSession_frame cfg s t j k h).2.2.1

/-- A property that holds of a freshly created goroutine and that no
transition can break holds of every goroutine along every run. -/
theorem run_all_sessions_invariant (cfg : AppConfig) (P : Session → Prop)
    (hnew : P newSession)
    (hcancel : ∀ y, P y → y.pc = Pc.waiting → P { y with pc := Pc.cancelled })
    (hown : ∀ now y z k w eff, P y → sessionStep cfg now k y = some (z, w, eff) → P z)
    (tr : List Event) (s t : State) (h : run cfg s tr = some t)
    (hs : ∀ (i : Nat) (y : Session), s.sessions[i]? = some y → P y) :
    ∀ (i : Nat) (z : Session), t.sessions[i]? = some z → P z := by
  induction tr generalizing s with
  | nil =>
    simp only [run, Option.some.injEq] at h
    subst h
    exact hs
  | cons e es ih =>
    simp only [run] at h
    cases hst : step cfg s e with
    | none => simp [hst] at h
    | some u =>
      simp only [hst] at h
      refine ih u h ?_
      intro i z hz
      rcases step_sessions_origin cfg s u e i z hst hz with ⟨y, hy⟩ | rfl
      · obtain ⟨z1, hz1, hcases⟩ := step_session_cases cfg s u e i y hst hy
        rw [hz] at hz1
        simp only [Option.some.injEq] at hz1
        subst hz1
        rcases hcases with rfl | ⟨-, hw, rfl⟩ | ⟨now, k, w, eff, hk⟩
        · exact hs i _ hy
        · exact hcancel y (hs i y hy) hw
        · exact hown now y z k w eff (hs i y hy) hk
      · exact hnew

/-- The same along runs in which every probe fails: no cancel signal is ever sent. -/
theorem run_all_sessions_invariant_failing (cfg : AppConfig) (P : Session → Prop)
    (hnew : P newSession)
    (hown : ∀ now y z k w eff, P y → sessionStep cfg now k y = some (z, w, eff) → P z)
    (tr : List Event) (s t : State) (h : run cfg s tr = some t)
    (hpend : ∀ b ∈ s.pending, b = false)
    (hall : ∀ b ∈ probesOf tr, b = false)
    (hs : ∀ (i : Nat) (y : Session), s.sessions[i]? = some y → P y) :
    ∀ (i : Nat) (z : Session), t.sessions[i]? = some z → P z := by
  induction tr generalizing s with
  | nil =>
    simp only [run, Option.some.injEq] at h
    subst h
    exact hs
  | cons e es ih =>
    simp only [run] at h
    rw [probesOf_cons] at hall
    cases hst : step cfg s e with
    | none => simp [hst] at h
    | some u =>
      simp only [hst] at h
      obtain ⟨new, -, -, hq⟩ := step_counter cfg s u e hst
      have hupend : ∀ b ∈ u.pending, b = false := by
        intro b hb
        have : b ∈ s.pending ++ probesOf [e] := by
          rw [hq]
          exact List.mem_append_right _ hb
        rcases List.mem_append.1 this with h1 | h1
        · exact hpend b h1
        · exact hall b (List.mem_append_left _ h1)
      refine ih u h hupend (fun b hb => hall b (List.mem_append_right _ hb)) ?_
      intro i z hz
      rcases step_sessions_origin cfg s u e i z hst hz with ⟨y, hy⟩ | rfl
      · obtain ⟨z1, hz1, hcases⟩ := step_session_cases cfg s u e i y hst hy
        rw [hz] at hz1
        simp only [Option.some.injEq] at hz1
        subst hz1
        rcases hcases with rfl | ⟨⟨-, hhead⟩, -, -⟩ | ⟨now, k, w, eff, hk⟩
        · exact hs i _ hy
        · have hmem : true ∈ s.pending := by
            cases hp : s.pending with
            | nil => simp [hp] at hhead
            | cons b rest =>
              simp only [hp, List.head?_cons, Option.some.injEq] at hhead
              simp [hhead]
          cases hpend true hmem
        · exact hown now y z k w eff (hs i y hy) hk
      · exact hnew

theorem sessInv_new (cfg : AppConfig) (m : Nat) : SessInv cfg m newSession := by
  simp [SessInv, newSession]

theorem sessInv_cancel (cfg : AppConfig) (m : Nat) (y : Session)
    (h : SessInv cfg m y) (hw : y.pc = Pc.waiting) :
    SessInv cfg m { y with pc := Pc.cancelled } := by
  obtain ⟨pc, r, pk, tk, c⟩ := y
  simp only at hw
  subst hw
  simp only [SessInv] at h ⊢
  exact ⟨h.2.1, h.2.2⟩

theorem sessInv_own (cfg : AppConfig) (m : Nat) (hm : (m : Int) = max cfg.WaitDuration 1)
    (now : Nat) (y z : Session) (k : SKind) (w : Option Bool) (eff : List Effect)
    (h : SessInv cfg m y) (hk : sessionStep cfg now k y = some (z, w, eff)) :
    SessInv cfg m z := by
  obtain ⟨pc, r, pk, tk, c⟩ := y
  have h1 : (1 : Int) ≤ m := by rw [hm]; exact le_max_right _ _
  have h2 : cfg.WaitDuration ≤ m := by rw [hm]; exact le_max_left _ _
  have h3 : (m : Int) = cfg.WaitDuration ∨ (m : Int) = 1 := by
    rcases max_cases cfg.WaitDuration 1 with h | h <;> omega
  cases pc <;> cases k <;> simp only [sessionStep] at hk <;>
    first
    | (simp at hk; done)
    | skip
  · -- start
    simp only [Option.some.injEq, Prod.mk.injEq] at hk
    obtain ⟨rfl, -, -⟩ := hk
    simp only [SessInv] at h ⊢
    obtain ⟨ht, hc⟩ := h
    subst ht
    exact ⟨by simp, by omega, hc⟩
  · -- tick
    simp only [Option.some.injEq, Prod.mk.injEq] at hk
    obtain ⟨rfl, -, -⟩ := hk
    simp only [SessInv] at h ⊢
    obtain ⟨hr, ht, hc⟩ := h
    refine ⟨?_, by omega, by omega, hc⟩
    push_cast
    omega
  · -- body
    simp only [SessInv] at h
    obtain ⟨hr, ht1, ht2, hc⟩ := h
    split at hk
    · simp only [Option.some.injEq, Prod.mk.injEq] at hk
      obtain ⟨rfl, -, -⟩ := hk
      simp only [SessInv]
      refine ⟨?_, hc⟩
      have : (tk : Int) ≤ m := by exact_mod_cast ht2
      have : (1 : Int) ≤ tk := by exact_mod_cast ht1
      have : (tk : Int) = m := by omega
      exact_mod_cast this
    · simp only [Option.some.injEq, Prod.mk.injEq] at hk
      obtain ⟨rfl, -, -⟩ := hk
      simp only [SessInv]
      refine ⟨by omega, ?_, hc⟩
      have : (tk : Int) < m := by omega
      exact_mod_cast this
  · -- act
    simp only [Option.some.injEq, Prod.mk.injEq] at hk
    obtain ⟨rfl, -, -⟩ := hk
    simp only [SessInv] at h ⊢
    exact ⟨h.1, by omega⟩
  · -- clear after the action
    simp only [Option.some.injEq, Prod.mk.injEq] at hk
    obtain ⟨rfl, -, -⟩ := hk
    simp only [SessInv] at h ⊢
    exact Or.inr h
  · -- clear after a cancel
    simp only [Option.some.injEq, Prod.mk.injEq] at hk
    obtain ⟨rfl, -, -⟩ := hk
    simp only [SessInv] at h ⊢
    exact Or.inl h

/-- In every state reached from the initial state every goroutine satisfies `SessInv`. -/
theorem reachable_sessInv (cfg : AppConfig) (m : Nat)
    (hm : (m : Int) = max cfg.WaitDuration 1) (tr : List Event) (t : State)
    (h : run cfg init tr = some t) (i : Nat) (z : Session)
    (hz : t.sessions[i]? = some z) : SessInv cfg m z :=
  run_all_sessions_invariant cfg (SessInv cfg m) (sessInv_new cfg m)
    (sessInv_cancel cfg m)
    (fun now y z k w eff hy hk => sessInv_own cfg m hm now y z k w eff hy hk)
    tr init t h (fun i y hy => by simp [init] at hy) i z hz

/-! ## Cancellation at the last second -/

/-- C1 fails on the code: with threshold 3 and a countdown of 2 seconds, the
goroutine armed by three failed probes has `remaining = 1` and has just taken
its second tick (control at line 358, not blocked in the `select`) when a probe
succeeds. The closure logs the recovery and calls `stopCountdown`, whose
non-blocking send finds no receiver and takes its `default` branch: no cancel
signal is delivered and `isAlerting` stays true. The goroutine then decrements
`remaining` to 0, calls `runActionCommand`, which launches the command, and
only then sets `isAlerting = false`. -/
theorem C1_recovery_dropped_command_runs :
    run quickCfg init
        (cyclesOf [false, false, false] ++
          [Event.sess 0 SKind.start, Event.sess 0 SKind.tick, Event.sess 0 SKind.body,
           Event.sess 0 SKind.tick]) =
      some { failCounter := 3, isAlerting := true, atArm := false, pending := [],
             ran := [false, false, false], clock := 4,
             sessions :=
               [{ pc := Pc.ticked, remaining := 1, parked := 2, ticks := 2, calls := 0 }],
             effects := [Effect.logLost] } ∧
    run quickCfg
        { failCounter := 3, isAlerting := true, atArm := false, pending := [],
          ran := [false, false, false], clock := 4,
          sessions :=
            [{ pc := Pc.ticked, remaining := 1, parked := 2, ticks := 2, calls := 0 }],
          effects := [Effect.logLost] }
        [Event.probe true, Event.ui] =
      some { failCounter := 0, isAlerting := true, atArm := true, pending := [],
             ran := [false, false, false, true], clock := 4,
             sessions :=
               [{ pc := Pc.ticked, remaining := 1, parked := 2, ticks := 2, calls := 0 }],
             effects := [Effect.logLost, Effect.logRecovered] } ∧
    run quickCfg
        { failCounter := 0, isAlerting := true, atArm := true, pending := [],
          ran := [false, false, false, true], clock := 4,
          sessions :=
            [{ pc := Pc.ticked, remaining := 1, parked := 2, ticks := 2, calls := 0 }],
          effects := [Effect.logLost, Effect.logRecovered] }
        [Event.arm, Event.sess 0 SKind.body, Event.sess 0 SKind.act,
         Event.sess 0 SKind.clear] =
      some { failCounter := 0, isAlerting := false, atArm := false, pending := [],
             ran := [false, false, false, true], clock := 7,
             sessions :=
               [{ pc := Pc.done, remaining := 0, parked := 2, ticks := 2, calls := 1 }],
             effects := [Effect.logLost, Effect.logRecovered,
               Effect.logExec "shutdown /h", Effect.launch "shutdown /h"] } := by
  decide

/-! ## Two countdown goroutines at once -/

/-- C3 fails on the code: with the built-in configuration and failed probes
only, the arming test of cycle 3 creates a goroutine, and if that goroutine has
not yet run its first statement (`isAlerting = true`) when cycle 4 reaches the
arming test, a second goroutine is created; both then run `startCountdown` and
wait in its `select` at the same time. -/
theorem C3_two_sessions_running :
    run defaultCfg init (cyclesOf [false, false, false, false]) =
      some { failCounter := 4, isAlerting := false, atArm := false, pending := [],
             ran := [false, false, false, false], clock := 0,
             sessions := [newSession, newSession], effects := [Effect.logLost] } ∧
    run defaultCfg init
        (cyclesOf [false, false, false, false] ++
          [Event.sess 0 SKind.start, Event.sess 1 SKind.start]) =
      some { failCounter := 4, isAlerting := true, atArm := false, pending := [],
             ran := [false, false, false, false], clock := 2,
             sessions :=
               [{ pc := Pc.waiting, remaining := 180, parked := 0, ticks := 0, calls := 0 },
                { pc := Pc.waiting, remaining := 180, parked := 1, ticks := 0, calls := 0 }],
             effects := [Effect.logLost] } := by
  decide

/-! ## The arming test and the queued closure -/

/-- C5 fails on the code: with the built-in configuration (`RetryCount = 3`) and
three failed probes from the initial state, when the arming test of cycle 3
runs before the UI thread has run the closure of that cycle, the test reads
`failCounter = 2` and starts no goroutine; after the closure has run,
`failCounter = 3` and `isAlerting = false`, and still no goroutine exists: the
cycle whose counter update reaches the threshold has started no session. -/
theorem C5_third_cycle_arms_nothing_on_stale_counter :
    run defaultCfg init (cyclesOf [false, false] ++ [Event.probe false]) =
      some { failCounter := 2, isAlerting := false, atArm := true, pending := [false],
             ran := [false, false], clock := 0, sessions := [], effects := [] } ∧
    step defaultCfg
        { failCounter := 2, isAlerting := false, atArm := true, pending := [false],
          ran := [false, false], clock := 0, sessions := [], effects := [] } Event.arm =
      some { failCounter := 2, isAlerting := false, atArm := false, pending := [false],
             ran := [false, false], clock := 0, sessions := [], effects := [] } ∧
    step defaultCfg
        { failCounter := 2, isAlerting := false, atArm := false, pending := [false],
          ran := [false, false], clock := 0, sessions := [], effects := [] } Event.ui =
      some { failCounter := 3, isAlerting := false, atArm := false, pending := [],
             ran := [false, false, false], clock := 0, sessions := [],
             effects := [Effect.logLost] } := by
  decide

/-- C10 fails on the code: with threshold 3 and a countdown of 2 seconds, after
three failed probes the first countdown expires, runs the command and sets
`isAlerting = false`, leaving `failCounter = 3`. The next probe succeeds; its
closure is queued, and the arming test of that cycle, run before the closure,
reads `failCounter = 3` and `isAlerting = false` and creates a second goroutine.
The closure then sets `failCounter = 0`, and the new goroutine starts counting
down: a countdown started by a cycle whose probe succeeded. -/
theorem C10_successful_cycle_arms_on_stale_counter :
    run quickCfg init
        (cyclesOf [false, false, false] ++
          [Event.sess 0 SKind.start, Event.sess 0 SKind.tick, Event.sess 0 SKind.body,
           Event.sess 0 SKind.tick, Event.sess 0 SKind.body, Event.sess 0 SKind.act,
           Event.sess 0 SKind.clear]) =
      some { failCounter := 3, isAlerting := false, atArm := false, pending := [],
             ran := [false, false, false], clock := 7,
             sessions :=
               [{ pc := Pc.done, remaining := 0, parked := 2, ticks := 2, calls := 1 }],
             effects := [Effect.logLost, Effect.logExec "shutdown /h",
               Effect.launch "shutdown /h"] } ∧
    run quickCfg
        { failCounter := 3, isAlerting := false, atArm := false, pending := [],
          ran := [false, false, false], clock := 7,
          sessions :=
            [{ pc := Pc.done, remaining := 0, parked := 2, ticks := 2, calls := 1 }],
          effects := [Effect.logLost, Effect.logExec "shutdown /h",
            Effect.launch "shutdown /h"] }
        [Event.probe true, Event.arm] =
      some { failCounter := 3, isAlerting := false, atArm := false, pending := [true],
             ran := [false, false, false], clock := 7,
             sessions :=
               [{ pc := Pc.done, remaining := 0, parked := 2, ticks := 2, calls := 1 },
                newSession],
             effects := [Effect.logLost, Effect.logExec "shutdown /h",
               Effect.launch "shutdown /h"] } ∧
    run quickCfg
        { failCounter := 3, isAlerting := false, atArm := false, pending := [true],
          ran := [false, false, false], clock := 7,
          sessions :=
            [{ pc := Pc.done, remaining := 0, parked := 2, ticks := 2, calls := 1 },
             newSession],
          effects := [Effect.logLost, Effect.logExec "shutdown /h",
            Effect.launch "shutdown /h"] }
        [Event.ui, Event.sess 1 SKind.start] =
      some { failCounter := 0, isAlerting := true, atArm := false, pending := [],
             ran := [false, false, false, true], clock := 8,
             sessions :=
               [{ pc := Pc.done, remaining := 0, parked := 2, ticks := 2, calls := 1 },
                { pc := Pc.waiting, remaining := 2, parked := 7, ticks := 0, calls := 0 }],
             effects := [Effect.logLost, Effect.logExec "shutdown /h",
               Effect.launch "shutdown /h"] } := by
  decide

/-! ## The "connection lost" log line -/

theorem lostCount_append (a b : List Effect) :
    lostCount (a ++ b) = lostCount a + lostCount b := by
  simp [lostCount]

theorem lostCount_runActionCommand (cfg : AppConfig) :
    lostCount (runActionCommand cfg) = 0 := by
  unfold runActionCommand lostCount
  by_cases h : (TrimSpace cfg.ActionCommand == "") = true <;> simp [h]

theorem probesOf_append (a b : List Event) :
    probesOf (a ++ b) = probesOf a ++ probesOf b := by
  induction a with
  | nil => rfl
  | cons e es ih =>
    rw [List.cons_append, probesOf_cons, probesOf_cons e es, ih, List.append_assoc]

theorem run_snoc (cfg : AppConfig) (s t : State) (tr : List Event) (e : Event)
    (h : run cfg s (tr ++ [e]) = some t) :
    ∃ u, run cfg s tr = some u ∧ step cfg u e = some t := by
  rw [run_append] at h
  cases hu : run cfg s tr with
  | none => simp [hu] at h
  | some u =>
    refine ⟨u, rfl, ?_⟩
    simp only [hu, Option.some_bind, run] at h
    cases hs : step cfg u e with
    | none => simp [hs] at h
    | some v => simpa [hs] using h

theorem thresholdCycles_snoc (R : Int) (ps : List Bool) (b : Bool) :
    thresholdCycles R (ps ++ [b]) =
      thresholdCycles R ps +
        (if (trailingFails (ps ++ [b]) : Int) = R then 1 else 0) := by
  unfold thresholdCycles
  rw [List.length_append, List.length_singleton, List.range_succ, List.filter_append,
    List.length_append]
  congr 1
  · congr 1
    apply List.filter_congr
    intro k hk
    have hk : k + 1 ≤ ps.length := List.mem_range.1 hk
    rw [List.take_append_of_le_length hk]
  · have : List.take (ps.length + 1) (ps ++ [b]) = ps ++ [b] :=
      List.take_of_length_le (by simp)
    simp only [List.filter_cons, List.filter_nil, this]
    split <;> simp_all

theorem thresholdCycles_le_append (R : Int) (a b : List Bool) :
    thresholdCycles R a ≤ thresholdCycles R (a ++ b) := by
  induction b using List.reverseRecOn with
  | nil => simp
  | append_singleton xs x ih =>
    rw [← List.append_assoc, thresholdCycles_snoc]
    omega

/-- The log lines a transition adds, counted for "connection lost", and the
closures it runs: the UI thread running the closure of a failed probe adds one
line exactly when it finds `isAlerting` false and brings `failCounter` to
`RetryCount`; nothing else adds such a line. -/
theorem step_lostCount (cfg : AppConfig) (s t : State) (e : Event)
    (h : step cfg s e = some t) :
    (e = Event.ui ∧ ∃ b rest, s.pending = b :: rest ∧ t.ran = s.ran ++ [b] ∧
      lostCount t.effects = lostCount s.effects +
        (if b = false ∧ s.isAlerting = false ∧ s.failCounter + 1 = cfg.RetryCount
          then 1 else 0)) ∨
    (e ≠ Event.ui ∧ t.ran = s.ran ∧ lostCount t.effects = lostCount s.effects) := by
  cases e with
  | probe b =>
    obtain ⟨_, rfl⟩ := step_probe_inv cfg b s t h
    exact Or.inr ⟨by simp, rfl, rfl⟩
  | ui =>
    left
    obtain ⟨b, rest, hp, hu⟩ := step_ui_inv cfg s t h
    refine ⟨rfl, b, rest, hp, (syncBody_frame cfg b _ t hu).2.2.2.1, ?_⟩
    cases b with
    | false =>
      rw [syncBody_false] at hu
      simp only [Option.some.injEq] at hu
      subst hu
      by_cases hc : s.isAlerting = false ∧ s.failCounter + 1 = cfg.RetryCount
      · simp [hc, lostCount]
      · simp [hc]
    | true =>
      rw [syncBody_true] at hu
      simp only [Option.some.injEq] at hu
      subst hu
      by_cases ha : s.isAlerting = true <;> simp [ha, lostCount]
  | arm =>
    obtain ⟨_, rfl⟩ := step_arm_inv cfg s t h
    obtain ⟨_, _, _, h4, h5, _⟩ := armCheck_frame cfg s
    exact Or.inr ⟨by simp, h4, by simp [h5]⟩
  | sess i k =>
    right
    refine ⟨by simp, (stepSession_frame cfg s t i k h).2.2.2.2, ?_⟩
    have h : stepSession cfg s i k = some t := h
    unfold stepSession at h
    cases hx : s.sessions[i]? with
    | none => simp [hx] at h
    | some x =>
      simp only [hx] at h
      cases hs : sessionStep cfg s.clock k x with
      | none => simp [hs] at h
      | some r =>
        obtain ⟨z, w, eff⟩ := r
        simp only [hs, Option.some.injEq] at h
        subst h
        have heff : lostCount eff = 0 := by
          obtain ⟨pc, r, pk, tk, c⟩ := x
          cases pc <;> cases k <;> simp only [sessionStep] at hs <;>
            first
            | (simp at hs; done)
            | skip
          all_goals
            first
            | (split at hs <;> simp only [Option.some.injEq, Prod.mk.injEq] at hs <;>
                obtain ⟨-, -, rfl⟩ := hs <;> rfl)
            | (simp only [Option.some.injEq, Prod.mk.injEq] at hs
               obtain ⟨-, -, rfl⟩ := hs
               first
               | rfl
               | exact lostCount_runActionCommand cfg)
        simp [lostCount_append, heff]

theorem run_lostCount_le (cfg : AppConfig) (tr : List Event) (s : State)
    (h : run cfg init tr = some s) :
    lostCount s.effects ≤ thresholdCycles cfg.RetryCount s.ran := by
  induction tr using List.reverseRecOn generalizing s with
  | nil =>
    simp only [run, Option.some.injEq] at h
    subst h
    simp [init, lostCount]
  | append_singleton es e ih =>
    obtain ⟨u, hu, hst⟩ := run_snoc cfg init s es e h
    have hle := ih u hu
    have hfc := (reachable_counter cfg es u hu).1
    rcases step_lostCount cfg u s e hst with ⟨-, b, rest, -, hran, hl⟩ | ⟨-, hran, hl⟩
    · rw [hl, hran, thresholdCycles_snoc, trailingFails_snoc]
      cases b with
      | true => simp; omega
      | false =>
        simp only [Bool.false_eq_true, if_false, true_and, Nat.cast_add, Nat.cast_one]
        rw [hfc]
        split
        · rename_i hc
          rw [if_pos hc.2]
          omega
        · split <;> omega
    · rw [hl, hran]
      exact hle

/-- C6 (as amended): along every run from the initial state, a transition adds
the "connection lost" line exactly when it is the UI thread running the closure
of a failed probe, that closure finds `isAlerting` false, and the failed probes
since the last success among the closures run so far (this one included) number
exactly `RetryCount`; no transition adds more than one such line; and the
number of such lines written in the run is at most the number of cycles in
which `failCounter` reaches `RetryCount`, so at most one for each maximal run
of failed probes. -/
theorem C6_lost_logged_iff_threshold_reached_while_not_alerting (cfg : AppConfig)
    (tr : List Event) (s s1 : State) (e : Event)
    (h0 : run cfg init tr = some s) (h1 : step cfg s e = some s1) :
    (lostCount s1.effects = lostCount s.effects + 1 ↔
      (e = Event.ui ∧ s.pending.head? = some false ∧ s.isAlerting = false ∧
        (trailingFails (s.ran ++ [false]) : Int) = cfg.RetryCount)) ∧
    (lostCount s1.effects = lostCount s.effects ∨
      lostCount s1.effects = lostCount s.effects + 1) ∧
    lostCount s1.effects ≤ thresholdCycles cfg.RetryCount s1.ran ∧
    thresholdCycles cfg.RetryCount s1.ran ≤
      thresholdCycles cfg.RetryCount (probesOf (tr ++ [e])) := by
  have hfc := (reachable_counter cfg tr s h0).1
  have hrun : run cfg init (tr ++ [e]) = some s1 := by
    rw [run_append, h0]
    simp [run, h1]
  have htf : (trailingFails (s.ran ++ [false]) : Int) = s.failCounter + 1 := by
    rw [trailingFails_snoc, hfc]
    simp
  refine ⟨?_, ?_, run_lostCount_le cfg (tr ++ [e]) s1 hrun, ?_⟩
  · rw [htf]
    rcases step_lostCount cfg s s1 e h1 with ⟨he, b, rest, hp, -, hl⟩ | ⟨he, -, hl⟩
    · rw [hl, hp]
      constructor
      · intro h
        by_cases hc : b = false ∧ s.isAlerting = false ∧ s.failCounter + 1 = cfg.RetryCount
        · obtain ⟨rfl, ha, hr⟩ := hc
          exact ⟨he, rfl, ha, hr⟩
        · rw [if_neg hc] at h
          omega
      · rintro ⟨-, hb, ha, hr⟩
        simp only [List.head?_cons, Option.some.injEq] at hb
        rw [if_pos ⟨hb, ha, hr⟩]
    · rw [hl]
      constructor
      · intro h
        omega
      · rintro ⟨h, -⟩
        exact absurd h he
  · rcases step_lostCount cfg s s1 e h1 with ⟨-, b, rest, -, -, hl⟩ | ⟨-, -, hl⟩
    · rw [hl]
      split
      · exact Or.inr rfl
      · exact Or.inl rfl
    · exact Or.inl hl
  · rw [(reachable_counter cfg (tr ++ [e]) s1 hrun).2]
    exact thresholdCycles_le_append _ _ _

/-- Witness for C6 (as amended): the closure of the third failed probe, with the
built-in configuration. -/
theorem C6_lost_logged_iff_threshold_reached_while_not_alerting_witness :
    lostCount [Effect.logLost] = lostCount [] + 1 :=
  (C6_lost_logged_iff_threshold_reached_while_not_alerting defaultCfg
    (cyclesOf [false, false] ++ [Event.probe false])
    { failCounter := 2, isAlerting := false, atArm := true, pending := [false],
      ran := [false, false], clock := 0, sessions := [], effects := [] }
    { failCounter := 3, isAlerting := false, atArm := true, pending := [],
      ran := [false, false, false], clock := 0, sessions := [],
      effects := [Effect.logLost] }
    Event.ui (by decide) (by decide)).1.2 ⟨rfl, rfl, rfl, by decide⟩

/-- C6 (as stated) fails: with the built-in configuration (`RetryCount = 3`) the
probes are three failures, a success, three failures. The success comes while
the countdown goroutine handles a tick, so the cancel signal is dropped and
`isAlerting` stays true; the second run of failures reaches `failCounter = 3`
in cycle 7 with `isAlerting` true, and the closure of that cycle writes no
"connection lost" line: two runs of failures reach the threshold, one line is
written. -/
theorem C6_counterexample_second_loss_not_logged :
    run defaultCfg init
        (cyclesOf [false, false, false] ++
          [Event.sess 0 SKind.start, Event.sess 0 SKind.tick, Event.probe true, Event.ui,
           Event.arm, Event.sess 0 SKind.body] ++ cyclesOf [false, false]) =
      some { failCounter := 2, isAlerting := true, atArm := false, pending := [],
             ran := [false, false, false, true, false, false], clock := 3,
             sessions :=
               [{ pc := Pc.waiting, remaining := 179, parked := 2, ticks := 1, calls := 0 }],
             effects := [Effect.logLost, Effect.logRecovered] } ∧
    run defaultCfg
        { failCounter := 2, isAlerting := true, atArm := false, pending := [],
          ran := [false, false, false, true, false, false], clock := 3,
          sessions :=
            [{ pc := Pc.waiting, remaining := 179, parked := 2, ticks := 1, calls := 0 }],
          effects := [Effect.logLost, Effect.logRecovered] }
        [Event.probe false, Event.ui] =
      some { failCounter := 3, isAlerting := true, atArm := true, pending := [],
             ran := [false, false, false, true, false, false, false], clock := 3,
             sessions :=
               [{ pc := Pc.waiting, remaining := 179, parked := 2, ticks := 1, calls := 0 }],
             effects := [Effect.logLost, Effect.logRecovered] } ∧
    thresholdCycles 3 [false, false, false, true, false, false, false] = 2 ∧
    lostCount [Effect.logLost, Effect.logRecovered] = 1 := by
  decide

/-! ## Runs in which every probe fails -/

theorem trailingFails_all_failed (l : List Bool) (h : ∀ b ∈ l, b = false) :
    trailingFails l = l.length := by
  induction l using List.reverseRecOn with
  | nil => rfl
  | append_singleton xs x ih =>
    have hx : x = false := h x (by simp)
    subst hx
    rw [trailingFails_snoc, ih (fun b hb => h b (List.mem_append_left _ hb))]
    simp

theorem quickCfg_expiry_tick : ((2 : Nat) : Int) = max quickCfg.WaitDuration 1 := by
  decide

/-- C7 (as amended): with threshold 3 and a countdown of 2 seconds, in every run
from the initial state in which every probe fails: `failCounter` is the number
of closures that have run (it is never reset); no goroutine is ever cancelled;
every goroutine has called `runActionCommand` at most once, has made its call
exactly when it is past line 365, and made it on its second tick; a freshly
created goroutine left to run takes two ticks, then makes its one call, which
launches the command, then sets `isAlerting = false` and returns; and whenever
the arming test runs with `isAlerting` false after at least three closures have
run, it creates a new goroutine. So after each expiry the loop arms again, and
the action runs once for each countdown, not once for the whole run. -/
theorem C7_quick_countdown_fires_once_per_session (tr : List Event) (s : State)
    (h : run quickCfg init tr = some s) (hall : ∀ b ∈ probesOf tr, b = false) :
    s.failCounter = (s.ran.length : Int) ∧
    (∀ (i : Nat) (z : Session), s.sessions[i]? = some z →
      z.pc ≠ Pc.cancelled ∧ z.calls ≤ 1 ∧
      (z.calls = 1 ↔ (z.pc = Pc.clearing ∨ z.pc = Pc.done)) ∧
      (z.calls = 1 → z.ticks = 2)) ∧
    (∀ (i : Nat), s.sessions[i]? = some newSession →
      (∃ y, (ownRun quickCfg i 5 s).sessions[i]? = some y ∧
        y.pc = Pc.expiring ∧ y.ticks = 2 ∧ y.calls = 0) ∧
      (∃ y, (ownRun quickCfg i 6 s).sessions[i]? = some y ∧
        y.pc = Pc.clearing ∧ y.ticks = 2 ∧ y.calls = 1) ∧
      (ownRun quickCfg i 6 s).effects =
        s.effects ++ [Effect.logExec "shutdown /h", Effect.launch "shutdown /h"] ∧
      (∃ y, (ownRun quickCfg i 7 s).sessions[i]? = some y ∧
        y.pc = Pc.done ∧ y.ticks = 2 ∧ y.calls = 1) ∧
      (ownRun quickCfg i 7 s).isAlerting = false) ∧
    (s.atArm = true → s.isAlerting = false → 3 ≤ s.ran.length →
      step quickCfg s Event.arm =
        some { s with atArm := false, sessions := s.sessions ++ [newSession] }) := by
  obtain ⟨hfc, hpr⟩ := reachable_counter quickCfg tr s h
  have hran : ∀ b ∈ s.ran, b = false := fun b hb =>
    hall b (by rw [hpr]; exact List.mem_append_left _ hb)
  have hlen : s.failCounter = (s.ran.length : Int) := by
    rw [hfc, trailingFails_all_failed s.ran hran]
  refine ⟨hlen, ?_, ?_, ?_⟩
  · intro i z hz
    have hP := run_all_sessions_invariant_failing quickCfg
      (fun y => SessInv quickCfg 2 y ∧ y.pc ≠ Pc.cancelled ∧ (y.pc = Pc.done → y.calls = 1))
      ⟨sessInv_new quickCfg 2, by simp [newSession], by simp [newSession]⟩
      (fun now y z k w eff hy hk => by
        refine ⟨sessInv_own quickCfg 2 quickCfg_expiry_tick now y z k w eff hy.1 hk, ?_⟩
        obtain ⟨hinv, hnc, hdone⟩ := hy
        obtain ⟨pc, r, pk, tk, c⟩ := y
        cases pc <;> cases k <;> simp only [sessionStep] at hk <;>
          first
          | (simp at hk; done)
          | skip
        all_goals
          first
          | exact absurd rfl hnc
          | (split at hk <;> simp only [Option.some.injEq, Prod.mk.injEq] at hk <;>
              obtain ⟨rfl, -, -⟩ := hk <;> simp)
          | (simp only [Option.some.injEq, Prod.mk.injEq] at hk
             obtain ⟨rfl, -, -⟩ := hk
             simp only [SessInv] at hinv
             simp [hinv])
      )
      tr init s h (fun b hb => by simp [init] at hb) hall
      (fun i y hy => by simp [init] at hy) i z hz
    obtain ⟨hinv, hnc, hdone⟩ := hP
    obtain ⟨pc, r, pk, tk, c⟩ := z
    cases pc <;> simp only [SessInv] at hinv <;> simp at hnc hdone ⊢ <;> omega
  · intro i hx
    have hi : i < s.sessions.length := (List.getElem?_eq_some.1 hx).1
    have e5 := own_expiring quickCfg s i hx 2 quickCfg_expiry_tick
    have e6 := own_clearing quickCfg s i hx 2 quickCfg_expiry_tick
    have e7 := own_done quickCfg s i hx 2 quickCfg_expiry_tick 0
    simp only [Nat.reduceMul, Nat.reduceAdd] at e5 e6 e7
    rw [e5, e6, e7]
    exact ⟨⟨_, withSession_get s i _ _ _ _ hi, rfl, rfl, rfl⟩,
      ⟨_, withSession_get s i _ _ _ _ hi, rfl, rfl, rfl⟩, rfl,
      ⟨_, withSession_get s i _ _ _ _ hi, rfl, rfl, rfl⟩, rfl⟩
  · intro hat ha h3
    have hR : quickCfg.RetryCount = 3 := rfl
    rw [step_arm_eq quickCfg s hat, armCheck_eq, if_pos]
    rw [hR, hlen]
    exact ⟨by exact_mod_cast h3, ha⟩

/-- Witness for C7 (as amended): after the first countdown has expired and the
closure of the fourth failed probe has run, the arming test creates a second
goroutine. -/
theorem C7_quick_countdown_fires_once_per_session_witness :
    step quickCfg
        { failCounter := 4, isAlerting := false, atArm := true, pending := [],
          ran := [false, false, false, false], clock := 7,
          sessions :=
            [{ pc := Pc.done, remaining := 0, parked := 2, ticks := 2, calls := 1 }],
          effects := [Effect.logLost, Effect.logExec "shutdown /h",
            Effect.launch "shutdown /h"] } Event.arm =
      some { failCounter := 4, isAlerting := false, atArm := false, pending := [],
             ran := [false, false, false, false], clock := 7,
             sessions :=
               [{ pc := Pc.done, remaining := 0, parked := 2, ticks := 2, calls := 1 }] ++
                 [newSession],
             effects := [Effect.logLost, Effect.logExec "shutdown /h",
               Effect.launch "shutdown /h"] } :=
  (C7_quick_countdown_fires_once_per_session
    (cyclesOf [false, false, false] ++
      [Event.sess 0 SKind.start, Event.sess 0 SKind.tick, Event.sess 0 SKind.body,
       Event.sess 0 SKind.tick, Event.sess 0 SKind.body, Event.sess 0 SKind.act,
       Event.sess 0 SKind.clear, Event.probe false, Event.ui])
    { failCounter := 4, isAlerting := false, atArm := true, pending := [],
      ran := [false, false, false, false], clock := 7,
      sessions :=
        [{ pc := Pc.done, remaining := 0, parked := 2, ticks := 2, calls := 1 }],
      effects := [Effect.logLost, Effect.logExec "shutdown /h",
        Effect.launch "shutdown /h"] }
    (by decide) (by decide)).2.2.2 rfl rfl (by decide)

/-- C7 (as stated) fails: with threshold 3 and a countdown of 2 seconds and
failed probes only, the first countdown expires and runs the command, the
fourth failed cycle arms a second countdown, and that one expires and runs the
command again: two launches in one run. -/
theorem C7_counterexample_action_runs_twice :
    run quickCfg init
        (cyclesOf [false, false, false] ++
          [Event.sess 0 SKind.start, Event.sess 0 SKind.tick, Event.sess 0 SKind.body,
           Event.sess 0 SKind.tick, Event.sess 0 SKind.body, Event.sess 0 SKind.act,
           Event.sess 0 SKind.clear] ++
          cyclesOf [false] ++
          [Event.sess 1 SKind.start, Event.sess 1 SKind.tick, Event.sess 1 SKind.body,
           Event.sess 1 SKind.tick, Event.sess 1 SKind.body, Event.sess 1 SKind.act,
           Event.sess 1 SKind.clear]) =
      some { failCounter := 4, isAlerting := false, atArm := false, pending := [],
             ran := [false, false, false, false], clock := 14,
             sessions :=
               [{ pc := Pc.done, remaining := 0, parked := 2, ticks := 2, calls := 1 },
                { pc := Pc.done, remaining := 0, parked := 9, ticks := 2, calls := 1 }],
             effects :=
               [Effect.logLost, Effect.logExec "shutdown /h", Effect.launch "shutdown /h",
                Effect.logExec "shutdown /h", Effect.launch "shutdown /h"] } := by
  decide

end OfflineGo
